import Mathlib

/-!
Verification of the `choked` rate-limiting library (file `choked/choked.py`).

The development shallowly embeds the pure/control-flow parts of the source:

* `parse_rate_limit` — the rate-spec string parser (regex `^(\d+)/(s|m)$`
  applied to the stripped input, as in the source);
* the argument-text extraction and token estimators
  (`_extract_text_from_args`, `_word_based_estimation`, `default_estimator`,
  `voyageai_estimator`, `openai_estimator`, the `ESTIMATORS` registry) —
  the external tokenizers (tiktoken / HuggingFace) are parameters
  `Option (String → Nat)`, `none` modelling the `except Exception` branch;
* the decoration-time setup of the `choked` decorator (`choked_setup`);
* the retry/backoff loop shared by `async_wrapper` and `sync_wrapper`
  (`retryLoop`, `wrapped_call`): the backend's `acquire` is abstracted as a
  finite trace of outcomes (grant / deny / raised error), each paired with
  the jitter value `random.uniform(0.8, 1.2)` would return on that round.

Machine floats are embedded as exact rationals (`ℚ`); the float operations
the source performs on the embedded values (`* 2`, literal arithmetic with
0.75 on small word counts) are exact in IEEE double for all inputs the
claims touch.
-/

/-- Python whitespace characters stripped by `str.strip()` / split by
`str.split()` (ASCII subset; the claims only exercise these). -/
def isPySpace (c : Char) : Bool :=
  c = ' ' || c = '\t' || c = '\n' || c = '\r' || c = '\x0b' || c = '\x0c'

/-- `str.strip()` on a character list: drop leading and trailing whitespace. -/
def pyStripList (cs : List Char) : List Char :=
  ((cs.dropWhile isPySpace).reverse.dropWhile isPySpace).reverse

/-- Decimal value of a digit character. -/
def digitVal (c : Char) : Nat := c.toNat - 48

/-- Value of a digit string, as computed by Python `int(...)` on the
group matched by `(\d+)`. -/
def natOfDigits (ds : List Char) : Nat :=
  ds.foldl (fun n c => 10 * n + digitVal c) 0

/-- Matching of the source regex `^(\d+)/(s|m)$` against a character list:
returns the value of the digit group and the period character on success.
(`\d` cannot match `/`, so the maximal digit run is the only possible
match for the first group.) -/
def matchRatePattern (cs : List Char) : Option (Nat × Char) :=
  if (cs.takeWhile Char.isDigit).isEmpty then none
  else
    match cs.dropWhile Char.isDigit with
    | ['/', c] =>
      if c = 's' || c = 'm' then some (natOfDigits (cs.takeWhile Char.isDigit), c)
      else none
    | _ => none

/-- Prefix of the `ValueError` message of `parse_rate_limit`. -/
def rateErrPre : String := "Invalid rate format '"

/-- Suffix of the `ValueError` message of `parse_rate_limit`. -/
def rateErrPost : String :=
  "'. Expected format: 'number/s' or 'number/m' (e.g., '1000/s', '10000/m')"

/-- Embedding of `parse_rate_limit` from `choked/choked.py`:
`None → (0, 0.0)`; otherwise match `^(\d+)/(s|m)$` against the stripped
string; `s` → `(n, n)`, `m` → `(n, n / 60)`; anything else raises
`ValueError` with a message naming the offending string.  The final
`raise` of the source (period neither `s` nor `m`) is kept although the
regex makes it unreachable. -/
def parse_rate_limit (rate_str : Option String) : Except String (Nat × ℚ) :=
  match rate_str with
  | none => .ok (0, 0)
  | some s =>
    match matchRatePattern (pyStripList s.toList) with
    | some (n, p) =>
      if p = 's' then .ok (n, (n : ℚ))
      else if p = 'm' then .ok (n, (n : ℚ) / 60)
      else .error "Invalid period"
    | none => .error (rateErrPre ++ s ++ rateErrPost)

/-- Character of a decimal digit `m < 10`. -/
def digitChar (m : Nat) : Char := Char.ofNat (48 + m)

/-- Decimal digit characters of `n` (standard literal, no leading zeros),
with fuel for structural termination. -/
def natDigitsAux : Nat → Nat → List Char
  | 0, _ => []
  | fuel + 1, n =>
    if n < 10 then [digitChar n]
    else natDigitsAux fuel (n / 10) ++ [digitChar (n % 10)]

/-- Decimal literal of `n` as a character list. -/
def natDigits (n : Nat) : List Char := natDigitsAux (n + 1) n

/-! ## Python values and argument-text extraction -/

/-- Python values as far as `_extract_text_from_args` inspects them:
strings, lists, dicts (association lists of key/value pairs in insertion
order), and anything else. -/
inductive PyVal where
  | str (s : String)
  | list (xs : List PyVal)
  | dict (entries : List (PyVal × PyVal))
  | other
deriving Repr

/-- `isinstance(v, str)` filter used by the list branches:
`[str(item) for item in value if isinstance(item, str)]`. -/
def strOnly : PyVal → Option String
  | .str s => some s
  | _ => none

/-- `str(v)` as used on `msg['content']`; the claims only exercise string
payloads, for which `str` is the identity. -/
def pyStr : PyVal → String
  | .str s => s
  | _ => ""

/-- The test `isinstance(msg, dict) and 'content' in msg` followed by
`str(msg['content'])`, applied to one element `msg` of the iteration.
Membership `'content' in msg` is keyed by string equality. -/
def msgContent : PyVal → Option String
  | .dict kvs =>
    match kvs.find? (fun p => match p.1 with | .str k => k = "content" | _ => false) with
    | some p => some (pyStr p.2)
    | none => none
  | _ => none

/-- One keyword argument's contribution to the extracted texts, in the
branch order of the source: `str` value, `list` value (string items only),
a `dict` value under the key `messages` (note: iterating a Python dict
yields its *keys*, so `for msg in value` ranges over the dict's keys). -/
def extractKw : String × PyVal → List String
  | (_, .str s) => [s]
  | (_, .list xs) => xs.filterMap strOnly
  | (k, .dict entries) =>
    if k = "messages" then entries.filterMap (fun p => msgContent p.1) else []
  | _ => []

/-- One positional argument's contribution to the extracted texts. -/
def extractArg : PyVal → List String
  | .str s => [s]
  | .list xs => xs.filterMap strOnly
  | _ => []

/-- Embedding of `_extract_text_from_args`: the source iterates the
keyword arguments first, then the positional ones, appending to one
list. -/
def extract_text_from_args (args : List PyVal) (kwargs : List (String × PyVal)) :
    List String :=
  (kwargs.flatMap extractKw) ++ (args.flatMap extractArg)

/-! ## Token estimators -/

/-- `text.split()` (whitespace split, empty tokens discarded): words of a
character list, accumulator = current word reversed. -/
def splitWsAux : List Char → List Char → List (List Char)
  | [], [] => []
  | [], acc => [acc.reverse]
  | c :: cs, acc =>
    if isPySpace c then
      if acc.isEmpty then splitWsAux cs [] else acc.reverse :: splitWsAux cs []
    else splitWsAux cs (c :: acc)

/-- Python `s.split()` on a string. -/
def pySplitWs (s : String) : List String :=
  (splitWsAux s.toList []).map (fun cs => String.mk cs)

/-- `sum(len(text.split()) for text in texts)` over the extracted texts. -/
def total_words (args : List PyVal) (kwargs : List (String × PyVal)) : Nat :=
  ((extract_text_from_args args kwargs).map (fun t => (pySplitWs t).length)).sum

/-- Embedding of `_word_based_estimation`: if no texts, 1; else
`max(1, int(total_words * 0.75))`.  `int` truncates toward zero, and
`w * 0.75` is exact in IEEE double for every word count the float can
represent exactly, so the result is `max 1 (3 * w / 4)` in `Nat`
(floor division). -/
def word_based_estimation (args : List PyVal) (kwargs : List (String × PyVal)) : Nat :=
  if (extract_text_from_args args kwargs).isEmpty then 1
  else max 1 (3 * total_words args kwargs / 4)

/-- Embedding of `default_estimator`.  `tik` abstracts the external
tiktoken encoder: `some enc` models a working tokenizer whose token count
for a text is `enc text`; `none` models the `except Exception` branch
(tokenizer failure). -/
def default_estimator (tik : Option (String → Nat)) (args : List PyVal)
    (kwargs : List (String × PyVal)) : Nat :=
  if (extract_text_from_args args kwargs).isEmpty then 1
  else
    match tik with
    | some enc => ((extract_text_from_args args kwargs).map enc).sum
    | none => word_based_estimation args kwargs

/-- Embedding of `voyageai_estimator`; `voy` abstracts the HuggingFace
tokenizer, and on its failure the source falls back to
`default_estimator`. -/
def voyageai_estimator (tik voy : Option (String → Nat)) (args : List PyVal)
    (kwargs : List (String × PyVal)) : Nat :=
  if (extract_text_from_args args kwargs).isEmpty then 1
  else
    match voy with
    | some enc => ((extract_text_from_args args kwargs).map enc).sum
    | none => default_estimator tik args kwargs

/-- Embedding of `openai_estimator`: delegates to `default_estimator`. -/
def openai_estimator (tik : Option (String → Nat)) (args : List PyVal)
    (kwargs : List (String × PyVal)) : Nat :=
  default_estimator tik args kwargs

/-- The keys of the `ESTIMATORS` registry dict. -/
def ESTIMATORS : List String := ["voyageai", "openai", "default"]

/-- `ESTIMATORS.get(token_estimator if token_estimator else "default")`:
Python truthiness sends `None` and `""` to `"default"`; `.get` returns
`None` (here `none`) for names outside the registry. -/
def lookupEstimator (token_estimator : Option String) : Option String :=
  let name :=
    match token_estimator with
    | some s => if s.isEmpty then "default" else s
    | none => "default"
  if ESTIMATORS.contains name then some name else none

/-- Run the registry estimator of the given name. -/
def runEstimator (name : String) (tik voy : Option (String → Nat))
    (args : List PyVal) (kwargs : List (String × PyVal)) : Nat :=
  if name = "voyageai" then voyageai_estimator tik voy args kwargs
  else if name = "openai" then openai_estimator tik args kwargs
  else default_estimator tik args kwargs

/-! ## Decoration-time setup of the `choked` decorator -/

/-- Everything `choked(...)` fixes at decoration time: the policy strings,
the parsed capacities/rates handed to `get_token_bucket`, and the resolved
estimator entry (`none` when the registry lookup found nothing). -/
structure ChokedPolicy where
  key : String
  requestLimit : Option String
  tokenLimit : Option String
  request_capacity : Nat
  request_refill_rate : ℚ
  token_capacity : Nat
  token_refill_rate : ℚ
  estimator : Option String
deriving Repr, DecidableEq

/-- Embedding of the decoration-time body of `choked(...)(func)`:
reject when both limits are `None`; parse the two rate strings (request
first — its error is reported first), wrapping a parse failure's message;
create the bucket from the parsed values and resolve the estimator with
`ESTIMATORS.get`. -/
def choked_setup (key : String) (request_limit token_limit token_estimator : Option String) :
    Except String ChokedPolicy :=
  if request_limit = none ∧ token_limit = none then
    .error "At least one of request_limit or token_limit must be provided"
  else
    match parse_rate_limit request_limit with
    | .error e => .error ("Invalid rate limit format: " ++ e)
    | .ok (rc, rr) =>
      match parse_rate_limit token_limit with
      | .error e => .error ("Invalid rate limit format: " ++ e)
      | .ok (tc, tr) =>
        .ok ⟨key, request_limit, token_limit, rc, rr, tc, tr,
             lookupEstimator token_estimator⟩

/-! ## The retry/backoff loop and the wrappers -/

/-- Outcome of one `bucket.acquire(...)` round as the wrapper observes it:
admission, denial, or a raised exception (e.g. backend unavailable). -/
inductive AcquireStep where
  | grant
  | deny
  | err (msg : String)
deriving Repr, DecidableEq

/-- One retry-loop execution over a finite trace of acquire outcomes, each
paired with the jitter `random.uniform(0.8, 1.2)` would yield on that
round; `cur` is `current_sleep`.  Returns the sleeps performed and
`some (ok ())` on admission, `some (error e)` when `acquire` raised, or
`none` when the trace ran out with the loop still waiting. -/
def retryLoop : List (AcquireStep × ℚ) → ℚ → List ℚ × Option (Except String Unit)
  | [], _ => ([], none)
  | (step, j) :: rest, cur =>
    match step with
    | .grant => ([], some (.ok ()))
    | .err m => ([], some (.error m))
    | .deny =>
      let r := retryLoop rest (cur * 2)
      (cur * j :: r.1, r.2)

/-- Python truthiness of an optional string (`if request_limit`): `None`
and the empty string are falsy. -/
def pyTruthy : Option String → Bool
  | none => false
  | some s => !s.isEmpty

/-- `tokens_needed = estimator_func(*args, **kwargs) if token_limit else 0`:
when a token limit is configured but the registry lookup yielded nothing,
the call `estimator_func(...)` raises `TypeError` (`None` is not
callable). -/
def tokensNeededE (st : ChokedPolicy) (tik voy : Option (String → Nat))
    (args : List PyVal) (kwargs : List (String × PyVal)) : Except String Nat :=
  if pyTruthy st.tokenLimit then
    match st.estimator with
    | some nm => .ok (runEstimator nm tik voy args kwargs)
    | none => .error "TypeError: NoneType object is not callable"
  else .ok 0

/-- Observable outcome of one wrapped call. -/
structure CallResult (α : Type) where
  requestsNeeded : Nat
  tokensNeeded : Nat
  sleeps : List ℚ
  calls : List (List PyVal × List (String × PyVal))
  result : Option (Except String α)

/-- Embedding of one invocation of the wrapper produced by `choked`
(`async_wrapper` and `sync_wrapper` have identical control flow, differing
only in how they sleep and await): compute `requests_needed` and
`tokens_needed`, run the retry loop with `current_sleep = 1.0`, and on
admission call the wrapped `func` exactly once with the original
arguments, returning its value.  `calls` records the argument tuples
`func` was invoked with; a raised exception appears as `.error`. -/
def wrapped_call {α : Type} (st : ChokedPolicy) (tik voy : Option (String → Nat))
    (f : List PyVal → List (String × PyVal) → α)
    (trace : List (AcquireStep × ℚ))
    (args : List PyVal) (kwargs : List (String × PyVal)) : CallResult α :=
  let rn := if pyTruthy st.requestLimit then 1 else 0
  match tokensNeededE st tik voy args kwargs with
  | .error e => ⟨rn, 0, [], [], some (.error e)⟩
  | .ok tn =>
    match retryLoop trace 1 with
    | (ss, some (.ok ())) => ⟨rn, tn, ss, [(args, kwargs)], some (.ok (f args kwargs))⟩
    | (ss, some (.error e)) => ⟨rn, tn, ss, [], some (.error e)⟩
    | (ss, none) => ⟨rn, tn, ss, [], none⟩

/-- The sleeps a run of consecutive denials produces, starting from
`current_sleep = c`: `c * j₀, 2c * j₁, 4c * j₂, …`. -/
def denySleeps (c : ℚ) : List ℚ → List ℚ
  | [] => []
  | j :: js => c * j :: denySleeps (c * 2) js

/-- A trace of consecutive denials with the given jitters. -/
def denyTrace (js : List ℚ) : List (AcquireStep × ℚ) :=
  js.map (fun j => (AcquireStep.deny, j))

/-! ## Retry-loop lemmas -/

lemma denySleeps_length (js : List ℚ) : ∀ c, (denySleeps c js).length = js.length := by
  induction js with
  | nil => intro c; rfl
  | cons j js ih => intro c; simp [denySleeps, ih]

lemma denySleeps_getD (js : List ℚ) : ∀ (c : ℚ) (n : ℕ), n < js.length →
    (denySleeps c js).getD n 0 = c * 2 ^ n * js.getD n 0 := by
  induction js with
  | nil => intro c n hn; simp at hn
  | cons j js ih =>
    intro c n hn
    cases n with
    | zero => simp [denySleeps]
    | succ n =>
      have hn' : n < js.length := by simpa using hn
      simp only [denySleeps, List.getD_cons_succ, ih (c * 2) n hn']
      ring

lemma retryLoop_denyTrace (js : List ℚ) :
    ∀ (rest : List (AcquireStep × ℚ)) (c : ℚ),
      retryLoop (denyTrace js ++ rest) c =
        (denySleeps c js ++ (retryLoop rest (c * 2 ^ js.length)).1,
         (retryLoop rest (c * 2 ^ js.length)).2) := by
  induction js with
  | nil => intro rest c; simp [denyTrace, denySleeps]
  | cons j js ih =>
    intro rest c
    show retryLoop ((AcquireStep.deny, j) :: (denyTrace js ++ rest)) c = _
    simp only [retryLoop]
    rw [ih rest (c * 2)]
    have hpow : c * 2 * 2 ^ js.length = c * 2 ^ (js.length + 1) := by ring
    simp [denySleeps, hpow]

/-! ## Claim C1 -/

/-- C1: in a wrapped-call retry loop entered with `current_sleep = 1.0`,
the sleep performed after the n-th consecutive denial (n = 0, 1, 2, …)
equals `2 ^ n` times that round's jitter; if every jitter lies in
[0.8, 1.2] the sleep lies in `[0.8 * 2 ^ n, 1.2 * 2 ^ n]`.  The backoff
doubles on every denial with no cap and no retry bound (the statement
holds for every number of denials `js.length` and every continuation
`rest` of the trace). -/
theorem claim_C1_backoff_doubles_with_jitter
    (js : List ℚ) (rest : List (AcquireStep × ℚ)) (n : ℕ)
    (hn : n < js.length)
    (hj : ∀ j ∈ js, (4 / 5 : ℚ) ≤ j ∧ j ≤ 6 / 5) :
    n < (retryLoop (denyTrace js ++ rest) 1).1.length ∧
    (retryLoop (denyTrace js ++ rest) 1).1.getD n 0 = 2 ^ n * js.getD n 0 ∧
    (4 / 5 : ℚ) * 2 ^ n ≤ (retryLoop (denyTrace js ++ rest) 1).1.getD n 0 ∧
    (retryLoop (denyTrace js ++ rest) 1).1.getD n 0 ≤ (6 / 5 : ℚ) * 2 ^ n := by
  rw [retryLoop_denyTrace]
  have hlen : n < (denySleeps 1 js).length := by rw [denySleeps_length]; exact hn
  have happ : ∀ l : List ℚ, (denySleeps 1 js ++ l).getD n 0 = (denySleeps 1 js).getD n 0 :=
    fun l => List.getD_append _ _ _ _ hlen
  have hval : (denySleeps 1 js).getD n 0 = 2 ^ n * js.getD n 0 := by
    rw [denySleeps_getD js 1 n hn]; ring
  have hmem : js.getD n 0 ∈ js := by
    rw [List.getD_eq_getElem _ _ hn]; exact List.getElem_mem hn
  have hb := hj _ hmem
  have hpow : (0 : ℚ) ≤ 2 ^ n := by positivity
  refine ⟨?_, ?_, ?_, ?_⟩
  · simpa using Nat.lt_of_lt_of_le hlen (by simp)
  · rw [happ, hval]
  · rw [happ, hval]
    calc (4 / 5 : ℚ) * 2 ^ n = 2 ^ n * (4 / 5) := by ring
    _ ≤ 2 ^ n * js.getD n 0 := mul_le_mul_of_nonneg_left hb.1 hpow
  · rw [happ, hval]
    calc (2 : ℚ) ^ n * js.getD n 0 ≤ 2 ^ n * (6 / 5) := mul_le_mul_of_nonneg_left hb.2 hpow
    _ = (6 / 5 : ℚ) * 2 ^ n := by ring

/-- Witness for C1 at the concrete trace deny(jitter 1), deny(jitter 1):
the second sleep (n = 1) equals `2 ^ 1 * 1 = 2` and lies in
`[0.8 * 2, 1.2 * 2]`. -/
theorem claim_C1_witness :
    1 < (retryLoop (denyTrace [(1 : ℚ), 1] ++ []) 1).1.length ∧
    (retryLoop (denyTrace [(1 : ℚ), 1] ++ []) 1).1.getD 1 0 = 2 ^ 1 * [(1 : ℚ), 1].getD 1 0 ∧
    (4 / 5 : ℚ) * 2 ^ 1 ≤ (retryLoop (denyTrace [(1 : ℚ), 1] ++ []) 1).1.getD 1 0 ∧
    (retryLoop (denyTrace [(1 : ℚ), 1] ++ []) 1).1.getD 1 0 ≤ (6 / 5 : ℚ) * 2 ^ 1 :=
  claim_C1_backoff_doubles_with_jitter [1, 1] [] 1 (by decide)
    (by
      intro j hj
      have h1 : j = 1 := by simpa using hj
      subst h1
      constructor <;> norm_num)

/-! ## Claim C5 -/

/-- C5: if `bucket.acquire` raises during a wrapped call (after any run of
ordinary denials), the exception propagates to the caller at once: no
sleep is performed for that round (the sleeps are exactly those of the
prior denials), the rest of the trace is never consulted (the outcome
does not mention `rest`), the error is not treated as a denial, and the
wrapped function is never invoked (`calls = []`). -/
theorem claim_C5_backend_error_propagates
    {α : Type} (st : ChokedPolicy) (tik voy : Option (String → Nat))
    (f : List PyVal → List (String × PyVal) → α)
    (js : List ℚ) (e : String) (jj : ℚ) (rest : List (AcquireStep × ℚ))
    (args : List PyVal) (kwargs : List (String × PyVal)) (tn : Nat)
    (htn : tokensNeededE st tik voy args kwargs = .ok tn) :
    wrapped_call st tik voy f (denyTrace js ++ (AcquireStep.err e, jj) :: rest) args kwargs =
      ⟨if pyTruthy st.requestLimit then 1 else 0, tn, denySleeps 1 js, [],
       some (.error e)⟩ := by
  unfold wrapped_call
  rw [htn, retryLoop_denyTrace]
  simp [retryLoop]

/-- Witness for C5: a concrete policy with only a request limit, an
error on the very first acquire; nothing is slept, the function is not
called, the error surfaces. -/
theorem claim_C5_witness :
    wrapped_call (α := Nat) ⟨"k", some "1/s", none, 1, 1, 0, 0, some "default"⟩
        none none (fun _ _ => 7)
        (denyTrace [] ++ (AcquireStep.err "BackendUnavailable", 1) :: []) [] [] =
      ⟨if pyTruthy (some "1/s") then 1 else 0, 0, denySleeps 1 [], [],
       some (.error "BackendUnavailable")⟩ :=
  claim_C5_backend_error_propagates _ none none _ [] "BackendUnavailable" 1 [] [] [] 0 rfl

/-! ## Setup-inversion lemmas -/

lemma parse_some_ok_not_empty {s : String} {v : Nat × ℚ}
    (h : parse_rate_limit (some s) = .ok v) : s.isEmpty = false := by
  cases hs : s.isEmpty with
  | false => rfl
  | true =>
    have he : s = "" := (String.isEmpty_iff s).mp hs
    subst he
    simp [parse_rate_limit, matchRatePattern, pyStripList] at h

lemma choked_setup_inv {k : String} {rl tl te : Option String} {st : ChokedPolicy}
    (h : choked_setup k rl tl te = .ok st) :
    st.requestLimit = rl ∧ st.tokenLimit = tl ∧ st.estimator = lookupEstimator te ∧
    (∃ v, parse_rate_limit rl = .ok v) ∧ (∃ v, parse_rate_limit tl = .ok v) := by
  unfold choked_setup at h
  split at h
  · cases h
  · cases hrl : parse_rate_limit rl with
    | error e => rw [hrl] at h; cases h
    | ok p =>
      obtain ⟨rc, rr⟩ := p
      rw [hrl] at h
      cases htl : parse_rate_limit tl with
      | error e => rw [htl] at h; cases h
      | ok q =>
        obtain ⟨tc, tr⟩ := q
        rw [htl] at h
        cases h
        exact ⟨rfl, rfl, rfl, ⟨_, rfl⟩, ⟨_, rfl⟩⟩

lemma pyTruthy_of_parse_ok {o : Option String} (h : ∃ v, parse_rate_limit o = .ok v) :
    pyTruthy o = o.isSome := by
  cases o with
  | none => rfl
  | some s =>
    obtain ⟨v, hv⟩ := h
    simp [pyTruthy, parse_some_ok_not_empty hv]

lemma retryLoop_denyTrace_granted (js : List ℚ) (jj : ℚ) (rest : List (AcquireStep × ℚ)) :
    retryLoop (denyTrace js ++ (AcquireStep.grant, jj) :: rest) 1 =
      (denySleeps 1 js, some (.ok ())) := by
  rw [retryLoop_denyTrace]
  simp [retryLoop]

/-! ## Claim C10 -/

/-- C10: on every invocation of a decorated function whose trace reaches
admission after some run of denials, the underlying function is called
exactly once, with exactly the original arguments, only after admission,
and its value is returned unchanged; `requests_needed` is 1 exactly when a
request limit is configured (else 0) and `tokens_needed` is the
estimator's value exactly when a token limit is configured (else 0). -/
theorem claim_C10_underlying_called_once
    (k : String) (rl tl te : Option String) (st : ChokedPolicy)
    (hdec : choked_setup k rl tl te = .ok st)
    {α : Type} (tik voy : Option (String → Nat))
    (f : List PyVal → List (String × PyVal) → α)
    (js : List ℚ) (jj : ℚ) (rest : List (AcquireStep × ℚ))
    (args : List PyVal) (kwargs : List (String × PyVal))
    (hest : st.estimator.isSome = true ∨ tl = none) :
    wrapped_call st tik voy f (denyTrace js ++ (AcquireStep.grant, jj) :: rest) args kwargs =
      ⟨if rl.isSome then 1 else 0,
       if tl.isSome then
         (match st.estimator with
          | some nm => runEstimator nm tik voy args kwargs
          | none => 0)
       else 0,
       denySleeps 1 js, [(args, kwargs)], some (.ok (f args kwargs))⟩ := by
  obtain ⟨hrl, htl, hreg, hpr, hpt⟩ := choked_setup_inv hdec
  have hrt : pyTruthy st.requestLimit = rl.isSome := by
    rw [hrl]; exact pyTruthy_of_parse_ok hpr
  have htt : pyTruthy st.tokenLimit = tl.isSome := by
    rw [htl]; exact pyTruthy_of_parse_ok hpt
  have htn : tokensNeededE st tik voy args kwargs =
      .ok (if tl.isSome then
             (match st.estimator with
              | some nm => runEstimator nm tik voy args kwargs
              | none => 0)
           else 0) := by
    unfold tokensNeededE
    rw [htt]
    cases tl with
    | none => simp
    | some s =>
      rcases hest with hes | hnone
      · obtain ⟨nm, hnm⟩ := Option.isSome_iff_exists.mp hes
        rw [hnm]; simp
      · cases hnone
  unfold wrapped_call
  rw [htn, retryLoop_denyTrace_granted, hrt]

/-- Witness for C10: request limit `1/s`, token limit `2/s`, default
estimator with no working tokenizer; one denial then admission.  The
function receives its original argument, is called once, the value comes
back unchanged, `requests_needed = 1`, `tokens_needed` is the estimator's
value (1 for the one-word text). -/
theorem claim_C10_witness :
    wrapped_call (α := Nat) ⟨"k", some "1/s", some "2/s", 1, 1, 2, 2, some "default"⟩
        none none (fun a _ => a.length)
        (denyTrace [(1 : ℚ)] ++ (AcquireStep.grant, 1) :: []) [PyVal.str "x"] [] =
      ⟨1, 1, [(1 : ℚ)], [([PyVal.str "x"], [])], some (.ok 1)⟩ := by
  have h := claim_C10_underlying_called_once "k" (some "1/s") (some "2/s") none
    ⟨"k", some "1/s", some "2/s", 1, 1, 2, 2, some "default"⟩
    (by rfl) none none (fun a _ => a.length) [(1 : ℚ)] 1 [] [PyVal.str "x"] []
    (Or.inl rfl)
  simpa [denySleeps, runEstimator, default_estimator, extract_text_from_args,
    extractArg, word_based_estimation, total_words, pySplitWs, splitWsAux] using h

/-! ## Claim C3 -/

/-- Counterexample to C3: the policy `request_limit="0/s"`,
`token_limit="0/s"` parses to request capacity 0 and token capacity 0 —
both zero — yet decoration succeeds (no invalid-policy error, a bucket
is created from the zero capacities). -/
theorem claim_C3_counterexample :
    choked_setup "k" (some "0/s") (some "0/s") none =
      .ok ⟨"k", some "0/s", some "0/s", 0, 0, 0, 0, some "default"⟩ := by
  rfl

/-- C3 amended: decoration fails exactly when both rate strings are
absent (`None`) or one of them fails to parse; parsed capacities are
never inspected, so a policy whose strings parse to zero capacities is
accepted. -/
theorem claim_C3_amended (k : String) (rl tl te : Option String) :
    (∃ e, choked_setup k rl tl te = .error e) ↔
      (rl = none ∧ tl = none) ∨ (∃ e, parse_rate_limit rl = .error e) ∨
        (∃ e, parse_rate_limit tl = .error e) := by
  unfold choked_setup
  split
  case isTrue h => exact ⟨fun _ => Or.inl h, fun _ => ⟨_, rfl⟩⟩
  case isFalse h =>
    cases hrl : parse_rate_limit rl with
    | error e => simp [h]
    | ok p =>
      obtain ⟨rc, rr⟩ := p
      cases htl : parse_rate_limit tl with
      | error e => simp [h]
      | ok q =>
        obtain ⟨tc, tr⟩ := q
        simp [h]

/-! ## Claim C6 -/

/-- Counterexample to C6: configuring the decorator with the unknown
estimator name `"bogus"` succeeds at decoration time — the registry
lookup silently yields nothing (`estimator = none`) and no
unknown-estimator error is raised. -/
theorem claim_C6_counterexample :
    choked_setup "k" (some "1/s") none (some "bogus") =
      .ok ⟨"k", some "1/s", none, 1, 1, 0, 0, none⟩ := by
  rfl

/-- C6 amended: an unknown estimator name is *not* rejected at setup:
decoration succeeds or fails independently of the name, the stored
estimator is exactly `ESTIMATORS.get(...)` (which is `none` for unknown
names), and the failure is deferred to call time — a call under a
configured token limit with no resolved estimator raises `TypeError`
before any acquire, sleep, or invocation of the wrapped function; with no
token limit the bogus name is silently ignored. -/
theorem claim_C6_amended (k : String) (rl tl te : Option String) :
    ((∃ st, choked_setup k rl tl te = .ok st) ↔
      (∃ st, choked_setup k rl tl none = .ok st)) ∧
    (∀ st, choked_setup k rl tl te = .ok st → st.estimator = lookupEstimator te) ∧
    (∀ (st : ChokedPolicy) (tik voy : Option (String → Nat))
       (f : List PyVal → List (String × PyVal) → Nat)
       (trace : List (AcquireStep × ℚ)) (args : List PyVal)
       (kwargs : List (String × PyVal)),
       st.estimator = none → pyTruthy st.tokenLimit = true →
         wrapped_call st tik voy f trace args kwargs =
           ⟨if pyTruthy st.requestLimit then 1 else 0, 0, [], [],
            some (.error "TypeError: NoneType object is not callable")⟩) := by
  refine ⟨?_, ?_, ?_⟩
  · unfold choked_setup
    split
    · simp
    · cases hrl : parse_rate_limit rl with
      | error e => simp
      | ok p =>
        obtain ⟨rc, rr⟩ := p
        cases htl : parse_rate_limit tl with
        | error e => simp
        | ok q => obtain ⟨tc, tr⟩ := q; simp
  · intro st h
    exact (choked_setup_inv h).2.2.1
  · intro st tik voy f trace args kwargs hest htl
    unfold wrapped_call tokensNeededE
    rw [htl, hest]
    simp

/-- Witness for C6 amended, at the policy produced by decorating with
token limit `1/s` and the unknown name `"bogus"`: the stored estimator is
the (empty) registry lookup, and a call fails with `TypeError` at once,
with no sleep and no invocation of the wrapped function. -/
theorem claim_C6_witness :
    (⟨"k", none, some "1/s", 0, 0, 1, 1, none⟩ : ChokedPolicy).estimator =
      lookupEstimator (some "bogus") ∧
    wrapped_call (α := Nat) ⟨"k", none, some "1/s", 0, 0, 1, 1, none⟩
        none none (fun _ _ => 7) [] [] [] =
      ⟨0, 0, [], [], some (.error "TypeError: NoneType object is not callable")⟩ := by
  have h := claim_C6_amended "k" none (some "1/s") (some "bogus")
  exact ⟨h.2.1 _ rfl, h.2.2 _ none none _ [] [] [] rfl rfl⟩

/-! ## Claim C4 -/

/-- Counterexample to C4: with text extractable from the arguments (the
empty string is a `str`, so it is extracted) and a tokenizer that — like
any real tokenizer — produces 0 tokens for the empty string, the default
estimator returns 0, not an integer ≥ 1. -/
theorem claim_C4_counterexample :
    extract_text_from_args [PyVal.str ""] [] = [""] ∧
    runEstimator "default" (some fun s => if s.isEmpty then 0 else s.length) none
      [PyVal.str ""] [] = 0 :=
  ⟨rfl, rfl⟩

lemma word_based_estimation_ge_one (args : List PyVal)
    (kwargs : List (String × PyVal)) : 1 ≤ word_based_estimation args kwargs := by
  unfold word_based_estimation
  split
  · exact le_refl 1
  · exact le_max_left 1 _

lemma default_estimator_none_ge_one (args : List PyVal)
    (kwargs : List (String × PyVal)) : 1 ≤ default_estimator none args kwargs := by
  unfold default_estimator
  split
  · exact le_refl 1
  · exact word_based_estimation_ge_one args kwargs

/-- C4 amended: every registry estimator returns exactly 1 when no text
is extractable (never zero), and returns an integer ≥ 1 whenever the
tokenizer path is unavailable (the word-count fallback).  On a successful
tokenization path, however, the raw token total is returned, which can be
0 (see the counterexample). -/
theorem claim_C4_amended (name : String) (tik voy : Option (String → Nat))
    (args : List PyVal) (kwargs : List (String × PyVal)) :
    (extract_text_from_args args kwargs = [] →
      runEstimator name tik voy args kwargs = 1) ∧
    (tik = none → voy = none → 1 ≤ runEstimator name tik voy args kwargs) := by
  constructor
  · intro hex
    unfold runEstimator voyageai_estimator openai_estimator default_estimator
    simp [hex]
  · intro ht hv
    subst ht; subst hv
    unfold runEstimator voyageai_estimator openai_estimator
    split
    · split
      · exact le_refl 1
      · exact default_estimator_none_ge_one args kwargs
    · split
      · exact default_estimator_none_ge_one args kwargs
      · exact default_estimator_none_ge_one args kwargs

/-- Witness for C4 amended: the default estimator on an argument list
with no extractable text returns exactly 1, and with no tokenizer
available the result is ≥ 1. -/
theorem claim_C4_witness :
    runEstimator "default" none none [PyVal.other] [] = 1 ∧
    1 ≤ runEstimator "default" none none [PyVal.other] [] :=
  ⟨(claim_C4_amended "default" none none [PyVal.other] []).1 rfl,
   (claim_C4_amended "default" none none [PyVal.other] []).2 rfl rfl⟩

/-! ## Claim C7 -/

/-- The fallback value the spec prescribes: `max(1, round(word_count * 0.75))`
with `round` as Python rounds (at the half-way points relevant here both
Python's bankers rounding and `round` agree). -/
def spec_word_fallback (wc : Nat) : ℤ := max 1 (round ((wc : ℚ) * (3 / 4)))

/-- Counterexample to C7: two extractable words, tokenization failing.
The code truncates: `max(1, int(2 * 0.75)) = max(1, 1) = 1`, while the
claimed formula rounds: `max(1, round(1.5)) = 2`. -/
theorem claim_C7_counterexample :
    runEstimator "default" none none [PyVal.str "hello world"] [] = 1 ∧
    total_words [PyVal.str "hello world"] [] = 2 ∧
    spec_word_fallback 2 = 2 := by
  refine ⟨rfl, rfl, ?_⟩
  unfold spec_word_fallback
  norm_num [round_eq]

/-- C7 amended: whenever precise tokenization fails and text is
extractable, the estimator returns `max(1, int(word_count * 0.75))` —
truncation (`int`), not rounding — over the whitespace word count of all
extracted texts; the value is always ≥ 1 and the tokenizer failure is
never surfaced (the default estimator silently equals the word-count
fallback). -/
theorem claim_C7_amended (args : List PyVal) (kwargs : List (String × PyVal))
    (h : extract_text_from_args args kwargs ≠ []) :
    word_based_estimation args kwargs = max 1 (3 * total_words args kwargs / 4) ∧
    1 ≤ word_based_estimation args kwargs ∧
    default_estimator none args kwargs = word_based_estimation args kwargs := by
  have hne : (extract_text_from_args args kwargs).isEmpty = false := by
    simpa [List.isEmpty_iff] using h
  refine ⟨?_, word_based_estimation_ge_one args kwargs, ?_⟩
  · unfold word_based_estimation
    simp [hne]
  · unfold default_estimator word_based_estimation
    simp [hne]

/-- Witness for C7 amended at the two-word single text `"a b"`:
the fallback value is `max 1 (3 * 2 / 4) = 1`. -/
theorem claim_C7_witness :
    word_based_estimation [PyVal.str "a b"] [] =
      max 1 (3 * total_words [PyVal.str "a b"] [] / 4) ∧
    1 ≤ word_based_estimation [PyVal.str "a b"] [] ∧
    default_estimator none [PyVal.str "a b"] [] =
      word_based_estimation [PyVal.str "a b"] [] :=
  claim_C7_amended [PyVal.str "a b"] [] (by decide)

/-! ## Claim C9 -/

/-- C9 is a code bug: for the conventional chat payload
`messages=[{"role": ..., "content": ...}]` (a *list* of records) the
extraction yields nothing — the list branch keeps only `str` items and
the `messages` branch requires the value itself to be a dict — so the
estimator behaves as if the call had no payload (returns 1) even with a
working tokenizer.  Even a dict-valued `messages` extracts nothing, since
iterating a Python dict yields its keys. -/
theorem claim_C9_messages_never_extracted :
    extract_text_from_args []
      [("messages", PyVal.list [PyVal.dict
        [(PyVal.str "role", PyVal.str "user"),
         (PyVal.str "content", PyVal.str "hello")]])] = [] ∧
    runEstimator "default" (some fun s => s.length) none []
      [("messages", PyVal.list [PyVal.dict
        [(PyVal.str "role", PyVal.str "user"),
         (PyVal.str "content", PyVal.str "hello")]])] = 1 ∧
    extract_text_from_args []
      [("messages", PyVal.dict [(PyVal.str "content", PyVal.str "hello")])] = [] :=
  ⟨rfl, rfl, rfl⟩

/-! ## Digit-string and strip lemmas for the parser claims -/

lemma digitChar_isDigit {m : Nat} (h : m < 10) : (digitChar m).isDigit = true := by
  interval_cases m <;> decide

lemma digitChar_not_space {m : Nat} (h : m < 10) : isPySpace (digitChar m) = false := by
  interval_cases m <;> decide

lemma digitVal_digitChar {m : Nat} (h : m < 10) : digitVal (digitChar m) = m := by
  interval_cases m <;> decide

lemma natOfDigits_append_one (l : List Char) (c : Char) :
    natOfDigits (l ++ [c]) = 10 * natOfDigits l + digitVal c := by
  unfold natOfDigits
  rw [List.foldl_append]
  rfl

lemma natDigitsAux_spec :
    ∀ fuel n, n < fuel →
      (∀ c ∈ natDigitsAux fuel n, c.isDigit = true) ∧
      natOfDigits (natDigitsAux fuel n) = n ∧ natDigitsAux fuel n ≠ [] := by
  intro fuel
  induction fuel with
  | zero => intro n h; omega
  | succ fuel ih =>
    intro n hn
    by_cases h10 : n < 10
    · refine ⟨?_, ?_, ?_⟩
      · intro c hc
        simp [natDigitsAux, h10] at hc
        subst hc
        exact digitChar_isDigit h10
      · simp [natDigitsAux, h10, natOfDigits, digitVal_digitChar h10]
      · simp [natDigitsAux, h10]
    · have hpos : 0 < n := by omega
      have hlt : n / 10 < n := Nat.div_lt_self hpos (by omega)
      have hfuel : n / 10 < fuel := by omega
      obtain ⟨hmem, hval, hne⟩ := ih (n / 10) hfuel
      have hm10 : n % 10 < 10 := Nat.mod_lt n (by omega)
      refine ⟨?_, ?_, ?_⟩
      · intro c hc
        simp only [natDigitsAux, if_neg h10, List.mem_append, List.mem_singleton] at hc
        rcases hc with hc | hc
        · exact hmem c hc
        · subst hc; exact digitChar_isDigit hm10
      · simp only [natDigitsAux, if_neg h10]
        rw [natOfDigits_append_one, hval, digitVal_digitChar hm10]
        omega
      · simp [natDigitsAux, if_neg h10]

lemma natDigits_spec (n : Nat) :
    (∀ c ∈ natDigits n, c.isDigit = true) ∧
    natOfDigits (natDigits n) = n ∧ natDigits n ≠ [] :=
  natDigitsAux_spec (n + 1) n (by omega)

lemma digit_not_space {c : Char} (h : c.isDigit = true) : isPySpace c = false := by
  revert h
  unfold Char.isDigit isPySpace
  intro h
  simp only [Bool.and_eq_true, decide_eq_true_eq] at h
  have h0 : ('0' : Char) ≤ c := h.1
  simp only [Bool.or_eq_false_iff, decide_eq_false_iff_not]
  refine ⟨⟨⟨⟨⟨?_, ?_⟩, ?_⟩, ?_⟩, ?_⟩, ?_⟩ <;>
    · rintro rfl
      revert h0
      decide

lemma takeWhile_digits_slash (l : List Char) :
    ∀ t : List Char, (∀ c ∈ l, c.isDigit = true) →
      (l ++ '/' :: t).takeWhile Char.isDigit = l ∧
      (l ++ '/' :: t).dropWhile Char.isDigit = '/' :: t := by
  induction l with
  | nil =>
    intro t h
    have hs : Char.isDigit '/' = false := rfl
    constructor
    · simp [List.takeWhile_cons, hs]
    · simp [List.dropWhile_cons, hs]
  | cons c l ih =>
    intro t h
    have hc : c.isDigit = true := h c (by simp)
    obtain ⟨h1, h2⟩ := ih t (fun x hx => h x (by simp [hx]))
    constructor
    · simp [List.takeWhile_cons, hc, h1]
    · simp [List.dropWhile_cons, hc, h2]

lemma pyStripList_eq_self {cs : List Char}
    (h1 : ∀ c, cs.head? = some c → isPySpace c = false)
    (h2 : ∀ c, cs.getLast? = some c → isPySpace c = false) :
    pyStripList cs = cs := by
  unfold pyStripList
  have hd : cs.dropWhile isPySpace = cs := by
    cases cs with
    | nil => rfl
    | cons c cs' =>
      have := h1 c rfl
      simp [List.dropWhile_cons, this]
  rw [hd]
  have hr : cs.reverse.dropWhile isPySpace = cs.reverse := by
    cases hcs : cs.reverse with
    | nil => rfl
    | cons c cs' =>
      have hlast : cs.getLast? = some c := by
        rw [← List.head?_reverse, hcs]
        rfl
      have := h2 c hlast
      simp [List.dropWhile_cons, this]
  rw [hr, List.reverse_reverse]

/-! ## Claim C2 -/

lemma matchRatePattern_digits (n : Nat) (p : Char) (hsm : p = 's' ∨ p = 'm') :
    matchRatePattern (natDigits n ++ ['/', p]) = some (n, p) := by
  obtain ⟨hdig, hval, hne⟩ := natDigits_spec n
  obtain ⟨htw, hdw⟩ := takeWhile_digits_slash (natDigits n) [p] hdig
  have hne' : (natDigits n).isEmpty = false := by
    simp [List.isEmpty_iff, hne]
  unfold matchRatePattern
  rw [htw, hdw, hval, hne']
  rcases hsm with rfl | rfl <;> rfl

lemma pyStrip_digits (n : Nat) (p : Char) (hp : isPySpace p = false) :
    pyStripList (natDigits n ++ ['/', p]) = natDigits n ++ ['/', p] := by
  obtain ⟨hdig, _, hne⟩ := natDigits_spec n
  apply pyStripList_eq_self
  · intro c hc
    obtain ⟨d, t, hdt⟩ := List.exists_cons_of_ne_nil hne
    rw [hdt] at hc
    simp only [List.cons_append, List.head?_cons, Option.some_inj] at hc
    subst hc
    exact digit_not_space (hdig d (by rw [hdt]; exact List.mem_cons_self d t))
  · intro c hc
    have h3 : ((natDigits n ++ ['/']) ++ [p]).getLast? = some p :=
      List.getLast?_concat _
    rw [show (natDigits n ++ ['/']) ++ [p] = natDigits n ++ ['/', p] by simp] at h3
    rw [h3] at hc
    obtain rfl : c = p := by simpa using hc.symm
    exact hp

/-- C2: for every non-negative integer literal `N` (the decimal digit
string of `n`), the parser maps `"N/s"` to capacity `n` with refill rate
`n` per second, `"N/m"` to capacity `n` with refill rate `n / 60` per
second, and an absent (`None`) input to `(0, 0.0)`. -/
theorem claim_C2_parse_rate_spec (n : Nat) :
    parse_rate_limit (some (String.mk (natDigits n ++ ['/', 's']))) = .ok (n, (n : ℚ)) ∧
    parse_rate_limit (some (String.mk (natDigits n ++ ['/', 'm']))) =
      .ok (n, (n : ℚ) / 60) ∧
    parse_rate_limit none = .ok (0, 0) := by
  have htl : ∀ l : List Char, (String.mk l).toList = l := fun _ => rfl
  refine ⟨?_, ?_, rfl⟩
  · simp only [parse_rate_limit]
    rw [htl, pyStrip_digits n 's' (by decide),
      matchRatePattern_digits n 's' (Or.inl rfl)]
    rfl
  · simp only [parse_rate_limit]
    rw [htl, pyStrip_digits n 'm' (by decide),
      matchRatePattern_digits n 'm' (Or.inr rfl)]
    rfl

/-! ## Claim C8 -/

/-- The language of the regex `^(\d+)/(s|m)$`: a nonempty digit string,
a slash, and a period letter `s` or `m`. -/
def RateShape (cs : List Char) : Prop :=
  ∃ ds p, cs = ds ++ ['/', p] ∧ ds ≠ [] ∧ (∀ c ∈ ds, c.isDigit = true) ∧
    (p = 's' ∨ p = 'm')

lemma matchRatePattern_some_period {cs : List Char} {nv : Nat} {p : Char}
    (h : matchRatePattern cs = some (nv, p)) : p = 's' ∨ p = 'm' := by
  unfold matchRatePattern at h
  split at h
  · cases h
  · split at h
    · split at h
      · rename_i c hdrop hc
        have h2 : c = p := congrArg Prod.snd (Option.some_inj.mp h)
        subst h2
        simpa using hc
      · cases h
    · cases h

lemma matchRatePattern_shape {cs : List Char} :
    (∃ v, matchRatePattern cs = some v) ↔ RateShape cs := by
  constructor
  · rintro ⟨⟨nv, p⟩, h⟩
    unfold matchRatePattern at h
    split at h
    · cases h
    case isFalse hemp =>
      split at h
      case _ c heq =>
        split at h
        case isTrue hc =>
          refine ⟨cs.takeWhile Char.isDigit, c, ?_, ?_, ?_, ?_⟩
          · conv_lhs => rw [← List.takeWhile_append_dropWhile Char.isDigit cs]
            rw [heq]
          · intro hnil
            apply hemp
            rw [hnil]
            rfl
          · intro x hx
            exact List.mem_takeWhile_imp hx
          · simpa using hc
        case isFalse => cases h
      case _ => cases h
  · rintro ⟨ds, p, rfl, hne, hdig, hp⟩
    obtain ⟨htw, hdw⟩ := takeWhile_digits_slash ds [p] hdig
    refine ⟨(natOfDigits ds, p), ?_⟩
    unfold matchRatePattern
    rw [htw, hdw]
    have hie : ds.isEmpty = false := by simp [List.isEmpty_iff, hne]
    rw [hie]
    rcases hp with rfl | rfl <;> rfl

/-- Counterexample to C8: the claim says strings with surrounding
whitespace are rejected, but the source strips the input first —
`" 5/s "` is accepted and parses to capacity 5, refill 5/s. -/
theorem claim_C8_counterexample :
    parse_rate_limit (some " 5/s ") = .ok (5, 5) := by rfl

/-- C8 amended: the parser accepts exactly the strings whose *stripped*
form matches `^(\d+)/(s|m)$` (so surrounding whitespace is tolerated,
contrary to the claim); every other input fails with the `ValueError`
message that names the offending string (unstripped) between the fixed
prefix and suffix, the suffix spelling out the two accepted forms. -/
theorem claim_C8_accepts_stripped_pattern (s : String) :
    ((∃ v, parse_rate_limit (some s) = .ok v) ↔ RateShape (pyStripList s.toList)) ∧
    (¬ RateShape (pyStripList s.toList) →
      parse_rate_limit (some s) = .error (rateErrPre ++ s ++ rateErrPost)) := by
  constructor
  · rw [← matchRatePattern_shape]
    constructor
    · rintro ⟨v, hv⟩
      revert hv
      simp only [parse_rate_limit]
      cases hm : matchRatePattern (pyStripList s.toList) with
      | none => intro hv; cases hv
      | some np => intro hv; exact ⟨np, rfl⟩
    · rintro ⟨⟨nv, p⟩, hm⟩
      have hp := matchRatePattern_some_period hm
      simp only [parse_rate_limit]
      rw [hm]
      rcases hp with rfl | rfl
      · exact ⟨(nv, (nv : ℚ)), rfl⟩
      · exact ⟨(nv, (nv : ℚ) / 60), rfl⟩
  · intro hns
    have hm : matchRatePattern (pyStripList s.toList) = none := by
      cases hm : matchRatePattern (pyStripList s.toList) with
      | none => rfl
      | some v => exact absurd (matchRatePattern_shape.mp ⟨v, hm⟩) hns
    simp only [parse_rate_limit]
    rw [hm]

/-- Witness for C8 amended: `"5/x"` does not match the pattern and is
rejected with the message naming it. -/
theorem claim_C8_witness :
    parse_rate_limit (some "5/x") = .error (rateErrPre ++ "5/x" ++ rateErrPost) := by
  apply (claim_C8_accepts_stripped_pattern "5/x").2
  rintro ⟨ds, p, heq, hne, hdig, hp⟩
  have h1 : pyStripList "5/x".toList = ['5', '/', 'x'] := rfl
  rw [h1] at heq
  have h3 : (ds ++ ['/', p]).getLast? = some p := by
    rw [show ds ++ ['/', p] = (ds ++ ['/']) ++ [p] by simp]
    exact List.getLast?_concat _
  rw [← heq] at h3
  have hx : p = 'x' := by simpa using h3.symm
  subst hx
  rcases hp with h | h <;> exact absurd h (by decide)
